import Mathlib

/-!
Verification of the AI-Psychometrics-Lab sampling-and-scoring pipeline.

The definitions below are a shallow embedding of the TypeScript source:

* the response parser and the sampling orchestration embed
  `src/app/api/analyze/route.ts` (function `runAnalysis`, lines 142-227);
* `deriveMBTIFromBigFive` embeds the derived-MBTI transform of the
  MBTI inventory module;
* `bigfivePOST` and `psychometricsPOST` embed the request validation of
  `src/app/api/bigfive/route.ts` and `src/app/api/psychometrics/route.ts`;
* `runAnalysisTrace` embeds the end-to-end flow of `runAnalysis`
  (sampling, scoring, one persistence call) as an event trace.

JavaScript numbers are modelled as rationals (`ℚ`) where division occurs
and as integers (`ℤ`) for encoded DISC samples; strings are modelled as
`String` or as their character lists.
-/

namespace PsychLab

/-- Item response formats: `likert5` is the source value "likert_5" and
`choiceBinary` is the source value "choice_binary" (DISC forced choice). -/
inductive ItemType where
  | likert5
  | choiceBinary
  deriving DecidableEq, Repr

/-- An inventory item as far as the orchestrator inspects it: an identity
and a response format. Prompt text only flows into the external query and
is absorbed into the query oracle. -/
structure InventoryItem where
  id : String
  type : ItemType
  deriving DecidableEq, Repr

/-! ## Response parser

Embeds the parsing in `runAnalysis` (route.ts lines 192-216).
The Likert branch runs the regex `\b([1-5])\b` on the response: the first
position holding a digit 1-5 with a word boundary on both sides.  The DISC
branch runs `(\d+)/g`: all maximal runs of decimal digits, in order. -/

/-- JavaScript regex word characters `\w` = `[A-Za-z0-9_]`. -/
def isWordChar (c : Char) : Bool :=
  c.isAlpha || c.isDigit || c = '_'

/-- Position `i` of `s` matches `\b([1-5])\b`: the character is a digit 1-5,
the previous character (if any) is not a word character, and the next
character (if any) is not a word character. -/
def likertDigitAt (s : List Char) (i : Nat) : Bool :=
  match s.get? i with
  | none => false
  | some c =>
    (decide ('1' ≤ c) && decide (c ≤ '5'))
      && (match i, s.get? (i - 1) with
          | 0, _ => true
          | _ + 1, some p => !isWordChar p
          | _ + 1, none => true)
      && (match s.get? (i + 1) with
          | some n => !isWordChar n
          | none => true)

/-- Left-to-right scan for the first match of `\b([1-5])\b`, starting at
position `i`. -/
def findStandalone (s : List Char) (i : Nat) : Option Nat :=
  if h : i < s.length then
    if likertDigitAt s i then some i else findStandalone s (i + 1)
  else
    none
termination_by s.length - i

/-- Numeric value of a decimal digit character. -/
def charVal (c : Char) : Nat := c.toNat - '0'.toNat

/-- Likert branch of the response parsing: value of the first standalone
digit 1-5, else the neutral fallback 3 (route.ts lines 206-216). -/
def parseLikert (s : List Char) : Nat :=
  match findStandalone s 0 with
  | some i =>
    match s.get? i with
    | some c => charVal c
    | none => 3
  | none => 3

/-- Accumulator pass of `digitRuns`: `acc` holds the digits of the current
run in reverse order. -/
def digitRunsAux : List Char → List Char → List (List Char)
  | [], acc => if acc.isEmpty then [] else [acc.reverse]
  | c :: rest, acc =>
    if c.isDigit then
      digitRunsAux rest (c :: acc)
    else if acc.isEmpty then
      digitRunsAux rest []
    else
      acc.reverse :: digitRunsAux rest []

/-- All maximal runs of decimal digits in `s`, in order: the match list of
the JavaScript regex `(\d+)/g`. -/
def digitRuns (s : List Char) : List (List Char) :=
  digitRunsAux s []

/-- Decimal value of a digit run, as computed by `parseInt`. -/
def decVal (ds : List Char) : Nat :=
  ds.foldl (fun a c => a * 10 + charVal c) 0

/-- DISC branch of the response parsing (route.ts lines 192-204): with at
least two digit runs, decode `most = first - 1`, `least = second - 1` and
record `most * 10 + least`; otherwise record 0. -/
def parseDISC (s : List Char) : Int :=
  match digitRuns s with
  | m0 :: m1 :: _ =>
    ((decVal m0 : Int) - 1) * 10 + ((decVal m1 : Int) - 1)
  | _ => 0

/-- Response parsing dispatched on the item type (route.ts lines 192-216). -/
def parseResponse (t : ItemType) (s : String) : Int :=
  match t with
  | .choiceBinary => parseDISC s.data
  | .likert5 => (parseLikert s.data : Int)

/-! ## Sampling orchestration

Embeds the loop of `runAnalysis` (route.ts lines 142-227).  The external
model query is a per-call oracle `q : InventoryItem → Nat → Except String
String`: argument `k` is the sample round, the `Except` value is either the
response text or a thrown error.  Items are processed in contiguous chunks
of `CHUNK_SIZE`; each item runs its `sampleCount` rounds in order and
writes its score list to the raw-score map once, keyed by the item id. -/

/-- Query oracle: one behaviour of the external model client, per item and
sample round. -/
abbrev QueryOracle := InventoryItem → Nat → Except String String

/-- Number of samples per item (route.ts line 149). -/
def sampleCount : Nat := 5

/-- Concurrency bound per batch (route.ts line 140). -/
def CHUNK_SIZE : Nat := 5

/-- One sample round for one item: on a successful query the response is
parsed, on a thrown query the fallback 3 is recorded (route.ts lines
150-220; the catch branch pushes 3 for every item type). -/
def sampleOnce (q : QueryOracle) (item : InventoryItem) (k : Nat) : Int :=
  match q item k with
  | .ok resp => parseResponse item.type resp
  | .error _ => 3

/-- The `sampleCount` raw samples of one item, in round order
(route.ts lines 146-221). -/
def sampleItem (q : QueryOracle) (item : InventoryItem) : List Int :=
  (List.range sampleCount).map (sampleOnce q item)

/-- The raw-score map as an association list in item order: the chunked
loop of route.ts lines 142-227.  Each chunk contributes one entry per item. -/
def runSampling (q : QueryOracle) (items : List InventoryItem) :
    List (String × List Int) :=
  match items with
  | [] => []
  | it :: rest =>
    ((it :: rest).take CHUNK_SIZE).map (fun i => (i.id, sampleItem q i))
      ++ runSampling q ((it :: rest).drop CHUNK_SIZE)
termination_by items.length
decreasing_by
  simp only [List.length_drop, List.length_cons, CHUNK_SIZE]
  omega

/-- `runSampling` is the per-item map: chunking does not change the
entries or their order. -/
theorem runSampling_eq_map (q : QueryOracle) (items : List InventoryItem) :
    runSampling q items = items.map (fun i => (i.id, sampleItem q i)) := by
  induction items using runSampling.induct q with
  | case1 => simp [runSampling]
  | case2 it rest ih =>
    rw [runSampling, ih, ← List.map_append, List.take_append_drop]

/-! ## Derived MBTI transform

Embeds `deriveMBTIFromBigFive` from the MBTI inventory module.  The
`InventoryResult` record mirrors the TypeScript shape: `traitScores` and
`psi` are string-keyed maps of numbers, `type` is optional. -/

/-- Result record of one inventory, mirroring the TypeScript
`InventoryResult`. -/
structure InventoryResult where
  inventoryName : String
  rawScores : List (String × List ℚ)
  traitScores : String → Option ℚ
  type : Option String
  psi : String → Option ℚ
  details : List (String × String)

/-- Midpoint of the 24-120 Big Five domain range. -/
def MIDPOINT : ℚ := 72

/-- Maximum deviation from the midpoint inside the 24-120 range. -/
def MAX_DELTA : ℚ := 48

/-- The JavaScript expression `scores[k] || MIDPOINT`: an absent value and
the falsy number 0 both fall back to the midpoint. -/
def orMid (v : Option ℚ) : ℚ :=
  match v with
  | some x => if x = 0 then MIDPOINT else x
  | none => MIDPOINT

/-- `deriveMBTIFromBigFive` (MBTI module): reads the Big Five domain
scores E, O, A, C, derives letters by the `score ≥ 72` test, PSI values
`|score - 72| / 48`, and a symmetric trait map with opposing pole
`144 - score`. -/
def deriveMBTIFromBigFive (bigFiveResults : InventoryResult) : InventoryResult :=
  let eScore := orMid (bigFiveResults.traitScores "E")
  let oScore := orMid (bigFiveResults.traitScores "O")
  let aScore := orMid (bigFiveResults.traitScores "A")
  let cScore := orMid (bigFiveResults.traitScores "C")
  { inventoryName := "MBTI (Derived from Big Five)"
    rawScores := []
    traitScores := fun k =>
      if k = "E" then some eScore else
      if k = "I" then some (144 - eScore) else
      if k = "N" then some oScore else
      if k = "S" then some (144 - oScore) else
      if k = "F" then some aScore else
      if k = "T" then some (144 - aScore) else
      if k = "J" then some cScore else
      if k = "P" then some (144 - cScore) else none
    type := some
      ((if eScore ≥ MIDPOINT then "E" else "I")
        ++ (if oScore ≥ MIDPOINT then "N" else "S")
        ++ (if aScore ≥ MIDPOINT then "F" else "T")
        ++ (if cScore ≥ MIDPOINT then "J" else "P"))
    psi := fun k =>
      if k = "IE" then some (|eScore - MIDPOINT| / MAX_DELTA) else
      if k = "SN" then some (|oScore - MIDPOINT| / MAX_DELTA) else
      if k = "TF" then some (|aScore - MIDPOINT| / MAX_DELTA) else
      if k = "JP" then some (|cScore - MIDPOINT| / MAX_DELTA) else none
    details := [("derived", "true"), ("source", "IPIP-NEO-120")] }

/-! ## Scoring-endpoint request validation

Embeds the POST handlers of `src/app/api/bigfive/route.ts` and
`src/app/api/psychometrics/route.ts`.  A JSON score entry is a number or
some other value; a raw-score entry is an array of values or a non-array;
the `rawScores` field itself is present (an object) or absent/not an
object (`none`). -/

/-- A JSON value in a score array: a number, or anything else. -/
inductive JVal where
  | num (q : ℚ)
  | other
  deriving DecidableEq, Repr

/-- A raw-score entry: an array of values, or a non-array value. -/
inductive JEntry where
  | arr (xs : List JVal)
  | nonarr
  deriving DecidableEq, Repr

/-- Outcome of a POST handler: an immediate validation error, or success
with the list of scoring functions that were invoked. -/
inductive ApiResult where
  | validationError (msg : String)
  | ok (invoked : List String)
  deriving DecidableEq, Repr

/-- A score value passes the Big Five check: a number in [1,5]
(bigfive route lines 54-56). -/
def validScore (v : JVal) : Bool :=
  match v with
  | .num q => decide (1 ≤ q) && decide (q ≤ 5)
  | .other => false

/-- Entry loop of the bigfive route (lines 41-68): for each entry, first
the array check, then every score value; the first offence aborts. -/
def bfCheckEntries : List (String × JEntry) → Option String
  | [] => none
  | (itemId, .nonarr) :: _ => some ("Invalid score format: " ++ itemId)
  | (itemId, .arr xs) :: rest =>
    if xs.all validScore then bfCheckEntries rest
    else some ("Invalid score value: " ++ itemId)

/-- POST `/api/bigfive`: validate the envelope, then invoke
`calculateBigFiveScores` (bigfive route lines 25-77). -/
def bigfivePOST (rawScores : Option (List (String × JEntry))) : ApiResult :=
  match rawScores with
  | none => .validationError "rawScores object is required"
  | some entries =>
    match bfCheckEntries entries with
    | some msg => .validationError msg
    | none => .ok ["bigfive"]

/-- The inventory names accepted by the combined endpoint
(psychometrics route line 55). -/
def validInventories : List String := ["bigfive", "mbti", "disc"]

/-- Entry loop of the psychometrics route (lines 70-82): only the array
check per entry, no check on the values. -/
def psychCheckEntries : List (String × JEntry) → Option String
  | [] => none
  | (itemId, .nonarr) :: _ => some ("Invalid score format: " ++ itemId)
  | (_, .arr _) :: rest => psychCheckEntries rest

/-- POST `/api/psychometrics` (lines 26-113): validate envelope shape,
inventory list and names, then the per-entry array check, then invoke the
scorers of the requested inventories in the fixed order bigfive, mbti,
disc.  The `inventories` field defaults to all three when absent. -/
def psychometricsPOST (rawScores : Option (List (String × JEntry)))
    (invs : Option (List String)) : ApiResult :=
  let inventories := invs.getD ["bigfive", "mbti", "disc"]
  match rawScores with
  | none => .validationError "rawScores object is required"
  | some entries =>
    if inventories.isEmpty then
      .validationError "inventories must be a non-empty array"
    else
      match inventories.find? (fun i => !validInventories.contains i) with
      | some i => .validationError ("Invalid inventory name: " ++ i)
      | none =>
        match psychCheckEntries entries with
        | some msg => .validationError msg
        | none => .ok (validInventories.filter (fun i => inventories.contains i))

/-! ## End-to-end analysis flow

Embeds the straight-line structure of `runAnalysis` (route.ts lines
111-284) as an event trace: one `sample` event per query call during
sampling, then at most one `persist` event carrying the stored record.
The three inventory scorers are external to the covered core and are
passed as collaborator functions; `deriveMBTIFromBigFive` is the one
embedded above.  The persistence collaborator returns `some err` on
failure and `none` on success; `none` in the `store` argument models an
unconfigured database client. -/

/-- The profile record assembled after scoring (route.ts lines 232-250). -/
structure ModelProfile where
  modelName : String
  persona : String
  systemPrompt : String
  results : List (String × InventoryResult)

/-- Observable events of one analysis run. -/
inductive Event where
  | sample (itemId : String) (round : Nat)
  | persist (p : ModelProfile)

/-- `Event.sample` recogniser. -/
def Event.isSample : Event → Bool
  | .sample _ _ => true
  | .persist _ => false

/-- `Event.persist` recogniser. -/
def Event.isPersist : Event → Bool
  | .sample _ _ => false
  | .persist _ => true

/-- The sample events of the orchestration, one per query call, in
deterministic (item, round) order. -/
def sampleEvents (items : List InventoryItem) : List Event :=
  items.flatMap (fun it => (List.range sampleCount).map (Event.sample it.id))

/-- Scorer collaborators: the three direct scoring functions consumed by
`runAnalysis` from the inventory modules. -/
structure Scorers where
  calcBigFive : List (String × List Int) → InventoryResult
  calcMBTI : List (String × List Int) → InventoryResult
  calcDISC : List (String × List Int) → InventoryResult

/-- Result assembly of `runAnalysis` (route.ts lines 240-250): one result
per requested inventory, plus the derived MBTI whenever bigfive ran. -/
def assembleResults (sc : Scorers) (inventories : List String)
    (raw : List (String × List Int)) : List (String × InventoryResult) :=
  (if inventories.contains "bigfive" then
    [("bigfive", sc.calcBigFive raw),
     ("mbti_derived", deriveMBTIFromBigFive (sc.calcBigFive raw))]
   else [])
  ++ (if inventories.contains "disc" then [("disc", sc.calcDISC raw)] else [])
  ++ (if inventories.contains "mbti" then [("mbti", sc.calcMBTI raw)] else [])

/-- The full `runAnalysis` flow (route.ts lines 111-284): sample every
item, assemble the profile, then make the single persistence call when a
store is configured.  Returns the event trace, the in-memory profile, and
the log line appended for the store outcome. -/
def runAnalysisTrace (q : QueryOracle) (sc : Scorers)
    (store : Option (ModelProfile → Option String))
    (model persona systemPrompt : String) (inventories : List String)
    (items : List InventoryItem) : List Event × ModelProfile × String :=
  let raw := runSampling q items
  let profile : ModelProfile :=
    { modelName := model
      persona := persona
      systemPrompt := systemPrompt
      results := assembleResults sc inventories raw }
  match store with
  | none =>
    (sampleEvents items, profile,
      "Warning: Supabase not configured, results not saved")
  | some st =>
    match st profile with
    | some err => (sampleEvents items ++ [Event.persist profile], profile,
        "Database error: " ++ err)
    | none => (sampleEvents items ++ [Event.persist profile], profile,
        "Results saved successfully!")

/-! ## Helper lemmas for the Likert parser -/

theorem likertDigitAt_of_ge_length (s : List Char) (i : Nat)
    (h : s.length ≤ i) : likertDigitAt s i = false := by
  unfold likertDigitAt
  rw [List.get?_eq_none.2 h]

theorem likertDigitAt_range (s : List Char) (i : Nat)
    (h : likertDigitAt s i = true) :
    ∃ c, s.get? i = some c ∧ '1' ≤ c ∧ c ≤ '5' := by
  unfold likertDigitAt at h
  cases hg : s.get? i with
  | none => rw [hg] at h; simp at h
  | some c =>
    rw [hg] at h
    simp only [Bool.and_eq_true, decide_eq_true_eq] at h
    exact ⟨c, rfl, h.1.1.1, h.1.1.2⟩

theorem findStandalone_eq_none (s : List Char) (k : Nat)
    (h : ∀ i, likertDigitAt s i = false) :
    findStandalone s k = none := by
  rw [findStandalone]
  split
  · rw [h k]
    simpa using findStandalone_eq_none s (k + 1) h
  · rfl
termination_by s.length - k

theorem findStandalone_first (s : List Char) (i k : Nat) (hk : k ≤ i)
    (hi : likertDigitAt s i = true)
    (hmin : ∀ j, j < i → likertDigitAt s j = false) :
    findStandalone s k = some i := by
  have hlen : i < s.length := by
    by_contra hcon
    rw [likertDigitAt_of_ge_length s i (by omega)] at hi
    exact Bool.false_ne_true hi
  rw [findStandalone, dif_pos (by omega)]
  by_cases hki : k = i
  · subst hki
    rw [hi]
    simp
  · have hkf : likertDigitAt s k = false := hmin k (by omega)
    rw [hkf]
    simpa using findStandalone_first s i (k + 1) (by omega) hi hmin
termination_by i - k

theorem charVal_likert_bounds (c : Char) (h1 : '1' ≤ c) (h5 : c ≤ '5') :
    1 ≤ charVal c ∧ charVal c ≤ 5 := by
  have hn1 : (49 : Nat) ≤ c.toNat := h1
  have hn5 : c.toNat ≤ (53 : Nat) := h5
  have e0 : ('0' : Char).toNat = 48 := rfl
  unfold charVal
  omega

theorem findStandalone_spec (s : List Char) (k i : Nat)
    (h : findStandalone s k = some i) : likertDigitAt s i = true := by
  rw [findStandalone] at h
  split at h
  · split at h
    · cases h
      assumption
    · exact findStandalone_spec s (k + 1) i h
  · cases h
termination_by s.length - k

/-- C3: the Likert branch records the value of the first standalone digit
1-5 of the response, records 3 when no position matches, never fails, and
always produces an integer in [1,5]. -/
theorem c3_likert_parse (s : List Char) :
    (1 ≤ parseLikert s ∧ parseLikert s ≤ 5) ∧
    ((∀ i, likertDigitAt s i = false) → parseLikert s = 3) ∧
    (∀ i c, likertDigitAt s i = true →
      (∀ j, j < i → likertDigitAt s j = false) →
      s.get? i = some c → parseLikert s = charVal c) := by
  refine ⟨?_, ?_, ?_⟩
  · cases hf : findStandalone s 0 with
    | none =>
      unfold parseLikert
      simp only [hf]
      omega
    | some i =>
      obtain ⟨c, hc, h1, h5⟩ := likertDigitAt_range s i (findStandalone_spec s 0 i hf)
      unfold parseLikert
      simp only [hf, hc]
      exact charVal_likert_bounds c h1 h5
  · intro h
    unfold parseLikert
    rw [findStandalone_eq_none s 0 h]
  · intro i c hi hmin hc
    unfold parseLikert
    rw [findStandalone_first s i 0 (Nat.zero_le i) hi hmin]
    simp only [hc]

/-- C3 witness: on a response with no standalone digit the parser records
3, and on "answer: 4" it records the standalone digit 4. -/
theorem c3_likert_parse_witness :
    parseLikert [] = 3 ∧
    parseLikert ['a', 'n', 's', 'w', 'e', 'r', ':', ' ', '4'] = 4 := by
  constructor
  · exact (c3_likert_parse []).2.1 (fun i => rfl)
  · exact ((c3_likert_parse _).2.2 8 '4' (by decide) (by decide)
      (by decide)).trans (by decide)

/-- C4 counterexample: on the response "5, 6" (two single digits, as the
prompt format invites) the code records the sample 45, which cannot be an
encoding `most * 10 + least` with both values in [0,3], since those
encodings are bounded by 33. -/
theorem c4_counterexample :
    parseDISC ['5', ',', ' ', '6'] = 45 ∧
    ¬(parseDISC ['5', ',', ' ', '6'] ≤ 33) := by
  constructor
  · decide
  · decide

/-- C4 amended: the DISC branch reads the first two maximal digit runs of
the response as decimal numbers `m0`, `m1` and records
`(m0 - 1) * 10 + (m1 - 1)` with no clamping of either value to [0,3];
with fewer than two digit runs it records 0; when both runs are single
digits 1-4 the decoded values do lie in [0,3]. -/
theorem c4_disc_parse (s : List Char) :
    (∀ r0 r1 rest, digitRuns s = r0 :: r1 :: rest →
      parseDISC s = ((decVal r0 : Int) - 1) * 10 + ((decVal r1 : Int) - 1)) ∧
    ((digitRuns s).length < 2 → parseDISC s = 0) ∧
    (∀ d0 d1 rest, digitRuns s = [d0] :: [d1] :: rest →
      '1' ≤ d0 → d0 ≤ '4' → '1' ≤ d1 → d1 ≤ '4' →
      ∃ most least : Int, 0 ≤ most ∧ most ≤ 3 ∧ 0 ≤ least ∧ least ≤ 3 ∧
        parseDISC s = most * 10 + least) := by
  refine ⟨?_, ?_, ?_⟩
  · intro r0 r1 rest h
    unfold parseDISC
    rw [h]
  · intro hlt
    unfold parseDISC
    cases hr : digitRuns s with
    | nil => rfl
    | cons a t =>
      cases t with
      | nil => rfl
      | cons b u =>
        rw [hr] at hlt
        simp at hlt
        omega
  · intro d0 d1 rest h h10 h40 h11 h41
    have hn10 : (49 : Nat) ≤ d0.toNat := h10
    have hn40 : d0.toNat ≤ (52 : Nat) := h40
    have hn11 : (49 : Nat) ≤ d1.toNat := h11
    have hn41 : d1.toNat ≤ (52 : Nat) := h41
    have e0 : ('0' : Char).toNat = 48 := rfl
    have hv0 : 1 ≤ charVal d0 ∧ charVal d0 ≤ 4 := by unfold charVal; omega
    have hv1 : 1 ≤ charVal d1 ∧ charVal d1 ≤ 4 := by unfold charVal; omega
    refine ⟨(charVal d0 : Int) - 1, (charVal d1 : Int) - 1,
      by omega, by omega, by omega, by omega, ?_⟩
    unfold parseDISC
    rw [h]
    have hd0 : decVal [d0] = charVal d0 := by unfold decVal; simp
    have hd1 : decVal [d1] = charVal d1 := by unfold decVal; simp
    simp only [hd0, hd1]

/-- C4 witness: the good case "1, 4" decodes to an encoding with both
values in [0,3], and the single-run response "12" records the fallback 0. -/
theorem c4_disc_parse_witness :
    (∃ most least : Int, 0 ≤ most ∧ most ≤ 3 ∧ 0 ≤ least ∧ least ≤ 3 ∧
      parseDISC ['1', ',', ' ', '4'] = most * 10 + least) ∧
    parseDISC ['1', '2'] = 0 := by
  constructor
  · exact (c4_disc_parse ['1', ',', ' ', '4']).2.2 '1' '4' []
      (by decide) (by decide) (by decide) (by decide) (by decide)
  · exact (c4_disc_parse ['1', '2']).2.1 (by decide)

/-- C1 counterexample: with a query that always throws, a ForcedChoicePair
item records the sample 3 on every round (the shared catch branch), not
the type-appropriate parse fallback 0 that the claim states. -/
theorem c1_counterexample :
    runSampling (fun _ _ => Except.error "network error")
        [{ id := "disc_1", type := .choiceBinary }]
      = [("disc_1", [3, 3, 3, 3, 3])] ∧ (3 : Int) ≠ 0 := by
  constructor
  · rw [runSampling_eq_map]
    decide
  · decide

/-- C1 amended: if the model query call throws, the sample recorded for
that round is 3 for both item types; the failure aborts neither the item
nor the batch nor the run, and with an always-failing query every entry of
every item raw-score array equals 3. -/
theorem c1_fallback_on_throw (q : QueryOracle) (items : List InventoryItem)
    (hq : ∀ it k, ∃ e, q it k = Except.error e) :
    runSampling q items
      = items.map (fun it => (it.id, List.replicate sampleCount (3 : Int))) := by
  rw [runSampling_eq_map]
  apply List.map_congr_left
  intro it _
  have hs : sampleItem q it = List.replicate sampleCount 3 := by
    unfold sampleItem
    have hone : ∀ k ∈ List.range sampleCount, sampleOnce q it k = 3 := by
      intro k _
      obtain ⟨e, he⟩ := hq it k
      unfold sampleOnce
      rw [he]
    rw [List.map_congr_left hone, List.map_const', List.length_range]
  rw [hs]

/-- C1 witness: an always-throwing oracle on one Likert item and one
forced-choice item yields five 3-samples for each. -/
theorem c1_fallback_on_throw_witness :
    runSampling (fun _ _ => Except.error "boom")
        [{ id := "E1", type := .likert5 }, { id := "disc_1", type := .choiceBinary }]
      = [("E1", [3, 3, 3, 3, 3]), ("disc_1", [3, 3, 3, 3, 3])] := by
  rw [c1_fallback_on_throw _ _ (fun it k => ⟨"boom", rfl⟩)]
  decide

/-! ## Helper lemmas for the raw-score map shape -/

theorem lookup_map_of_nodup {γ : Type} (f : γ → String) (g : γ → List Int)
    (l : List γ) (a : γ) (hnd : (l.map f).Nodup) (ha : a ∈ l) :
    (l.map (fun x => (f x, g x))).lookup (f a) = some (g a) := by
  induction l with
  | nil => cases ha
  | cons x t ih =>
    simp only [List.map_cons, List.nodup_cons] at hnd
    rcases List.mem_cons.1 ha with rfl | hat
    · simp [List.lookup]
    · have hne : (f a == f x) = false := by
        rw [beq_eq_false_iff_ne]
        intro he
        exact hnd.1 (he ▸ List.mem_map_of_mem f hat)
      simp only [List.map_cons, List.lookup, hne]
      exact ih hnd.2 hat

theorem filter_key_map_of_nodup {γ : Type} (f : γ → String) (g : γ → List Int)
    (l : List γ) (a : γ) (hnd : (l.map f).Nodup) (ha : a ∈ l) :
    ((l.map (fun x => (f x, g x))).filter (fun p => p.1 = f a)).length = 1 := by
  induction l with
  | nil => cases ha
  | cons x t ih =>
    simp only [List.map_cons, List.nodup_cons] at hnd
    rcases List.mem_cons.1 ha with rfl | hat
    · have htail :
          ((t.map (fun x => (f x, g x))).filter (fun p => p.1 = f a)).length = 0 := by
        rw [List.length_eq_zero, List.filter_eq_nil_iff]
        intro p hp
        obtain ⟨y, hy, rfl⟩ := List.mem_map.1 hp
        simp only [decide_eq_true_eq]
        intro he
        exact hnd.1 (he ▸ List.mem_map_of_mem f hy)
      rw [List.map_cons, List.filter_cons, if_pos (by exact decide_eq_true rfl),
        List.length_cons, htail]
    · have hne : f x ≠ f a := by
        intro he
        exact hnd.1 (he ▸ List.mem_map_of_mem f hat)
      rw [List.map_cons, List.filter_cons,
        if_neg (by simp only [decide_eq_true_eq]; exact hne)]
      exact ih hnd.2 hat

/-- C2: for every item list with distinct ids (the catalog guarantee) and
every behaviour of the query function, the raw-score map has exactly one
entry per input item id, written by that item alone, and each entry is the
ordered list of exactly `sampleCount` = 5 samples of its item. -/
theorem c2_rawscore_map_shape (q : QueryOracle) (items : List InventoryItem)
    (hnd : (items.map InventoryItem.id).Nodup) :
    sampleCount = 5 ∧
    ((runSampling q items).map Prod.fst = items.map InventoryItem.id) ∧
    (∀ p ∈ runSampling q items, p.2.length = sampleCount) ∧
    (∀ it ∈ items,
      ((runSampling q items).filter (fun p => p.1 = it.id)).length = 1 ∧
      (runSampling q items).lookup it.id = some (sampleItem q it)) := by
  refine ⟨rfl, ?_, ?_, ?_⟩
  · rw [runSampling_eq_map, List.map_map]
    rfl
  · intro p hp
    rw [runSampling_eq_map] at hp
    obtain ⟨it, _, rfl⟩ := List.mem_map.1 hp
    simp [sampleItem]
  · intro it hit
    rw [runSampling_eq_map]
    exact ⟨filter_key_map_of_nodup _ _ _ _ hnd hit,
      lookup_map_of_nodup _ _ _ _ hnd hit⟩

/-- Oracle used by witnesses: even rounds succeed with a parsable
response, odd rounds throw. -/
def wOracle : QueryOracle := fun _ k =>
  if k % 2 = 0 then Except.ok "I pick 4" else Except.error "timeout"

/-- Item list used by witnesses: one Likert item and one forced-choice
item with distinct ids. -/
def wItems : List InventoryItem :=
  [{ id := "E1", type := .likert5 }, { id := "disc_1", type := .choiceBinary }]

/-- C2 witness: on a concrete two-item catalog with a half-failing oracle
the raw-score map has the two keys in order and the forced-choice entry
is the sample list of its item. -/
theorem c2_rawscore_map_shape_witness :
    (runSampling wOracle wItems).map Prod.fst = ["E1", "disc_1"] ∧
    (runSampling wOracle wItems).lookup "disc_1"
      = some (sampleItem wOracle { id := "disc_1", type := .choiceBinary }) := by
  have h := c2_rawscore_map_shape wOracle wItems (by decide)
  refine ⟨?_, ?_⟩
  · rw [h.2.1]
    decide
  · exact (h.2.2.2 { id := "disc_1", type := .choiceBinary } (by decide)).2

/-! ## Helper lemmas for the endpoint validation -/

theorem bfCheckEntries_eq_none (l : List (String × JEntry))
    (h : bfCheckEntries l = none) :
    ∀ p ∈ l, ∃ xs, p.2 = JEntry.arr xs ∧ xs.all validScore = true := by
  induction l with
  | nil => intro p hp; cases hp
  | cons e t ih =>
    intro p hp
    obtain ⟨eid, ev⟩ := e
    cases ev with
    | nonarr => simp [bfCheckEntries] at h
    | arr xs =>
      unfold bfCheckEntries at h
      by_cases hall : xs.all validScore = true
      · rw [if_pos hall] at h
        rcases List.mem_cons.1 hp with rfl | hpt
        · exact ⟨xs, rfl, hall⟩
        · exact ih h p hpt
      · rw [if_neg hall] at h
        cases h

theorem psychCheckEntries_eq_none (l : List (String × JEntry))
    (h : psychCheckEntries l = none) :
    ∀ p ∈ l, ∃ xs, p.2 = JEntry.arr xs := by
  induction l with
  | nil => intro p hp; cases hp
  | cons e t ih =>
    intro p hp
    obtain ⟨eid, ev⟩ := e
    cases ev with
    | nonarr => simp [psychCheckEntries] at h
    | arr xs =>
      unfold psychCheckEntries at h
      rcases List.mem_cons.1 hp with rfl | hpt
      · exact ⟨xs, rfl⟩
      · exact ih h p hpt

theorem psychCheckEntries_of_all_arr (l : List (String × JEntry))
    (h : ∀ p ∈ l, ∃ xs, p.2 = JEntry.arr xs) :
    psychCheckEntries l = none := by
  induction l with
  | nil => rfl
  | cons e t ih =>
    obtain ⟨eid, ev⟩ := e
    cases ev with
    | nonarr =>
      obtain ⟨xs, hxs⟩ := h (eid, JEntry.nonarr) (List.mem_cons_self _ _)
      cases hxs
    | arr xs =>
      unfold psychCheckEntries
      exact ih (fun p hp => h p (List.mem_cons_of_mem _ hp))

theorem bigfivePOST_ok_inv (entries : List (String × JEntry)) (l : List String)
    (hok : bigfivePOST (some entries) = .ok l) :
    bfCheckEntries entries = none := by
  simp only [bigfivePOST] at hok
  split at hok
  · cases hok
  · assumption

theorem psychometricsPOST_ok_inv (entries : List (String × JEntry))
    (invs : Option (List String)) (l : List String)
    (hok : psychometricsPOST (some entries) invs = .ok l) :
    (invs.getD ["bigfive", "mbti", "disc"]).find?
        (fun i => !validInventories.contains i) = none ∧
    psychCheckEntries entries = none := by
  simp only [psychometricsPOST] at hok
  split at hok
  · cases hok
  · split at hok
    · cases hok
    · split at hok
      · cases hok
      · refine ⟨by assumption, by assumption⟩

theorem apiResult_error_of_not_ok (r : ApiResult) (h : ∀ l, r ≠ .ok l) :
    ∃ m, r = .validationError m := by
  cases r with
  | validationError m => exact ⟨m, rfl⟩
  | ok l => exact absurd rfl (h l)

/-- C5 counterexample: the combined psychometrics endpoint accepts the
envelope with the out-of-range Big Five entry 99 and invokes the Big Five
scorer on it, while the same envelope is rejected by the dedicated
bigfive endpoint. -/
theorem c5_counterexample :
    psychometricsPOST (some [("N1", JEntry.arr [JVal.num 99])]) (some ["bigfive"])
      = .ok ["bigfive"] ∧
    validScore (JVal.num 99) = false ∧
    bigfivePOST (some [("N1", JEntry.arr [JVal.num 99])])
      = .validationError "Invalid score value: N1" := by
  refine ⟨by decide, by decide, by decide⟩

/-- C5 amended: wrong envelope shape (missing raw-score object or a
non-array entry) and unknown inventory names are rejected before any
scoring at both endpoints, and an out-of-range or non-numeric entry is
rejected before scoring at the dedicated bigfive endpoint; the combined
psychometrics endpoint however checks only the array shape and the
inventory names, and invokes the requested scorers regardless of the
entry values. -/
theorem c5_validation (entries : List (String × JEntry)) (invs : List String) :
    ((∃ itemId, (itemId, JEntry.nonarr) ∈ entries) →
      (∃ m, bigfivePOST (some entries) = .validationError m) ∧
      (∃ m, psychometricsPOST (some entries) (some invs) = .validationError m)) ∧
    ((∃ itemId xs v, (itemId, JEntry.arr xs) ∈ entries ∧ v ∈ xs ∧
        validScore v = false) →
      ∃ m, bigfivePOST (some entries) = .validationError m) ∧
    ((∃ name, name ∈ invs ∧ name ∉ validInventories) →
      ∃ m, psychometricsPOST (some entries) (some invs) = .validationError m) ∧
    (bigfivePOST none = .validationError "rawScores object is required") ∧
    ((∀ p ∈ entries, ∃ xs, p.2 = JEntry.arr xs) → invs ≠ [] →
      (∀ n ∈ invs, n ∈ validInventories) →
      psychometricsPOST (some entries) (some invs)
        = .ok (validInventories.filter (fun i => invs.contains i))) := by
  refine ⟨?_, ?_, ?_, rfl, ?_⟩
  · rintro ⟨itemId, hmem⟩
    constructor
    · apply apiResult_error_of_not_ok
      intro l hok
      obtain ⟨xs, hxs, _⟩ :=
        bfCheckEntries_eq_none entries (bigfivePOST_ok_inv entries l hok)
          (itemId, JEntry.nonarr) hmem
      cases hxs
    · apply apiResult_error_of_not_ok
      intro l hok
      obtain ⟨xs, hxs⟩ :=
        psychCheckEntries_eq_none entries
          (psychometricsPOST_ok_inv entries (some invs) l hok).2
          (itemId, JEntry.nonarr) hmem
      cases hxs
  · rintro ⟨itemId, xs, v, hmem, hv, hbad⟩
    apply apiResult_error_of_not_ok
    intro l hok
    obtain ⟨ys, hys, hall⟩ :=
      bfCheckEntries_eq_none entries (bigfivePOST_ok_inv entries l hok)
        (itemId, JEntry.arr xs) hmem
    cases hys
    rw [List.all_eq_true] at hall
    rw [hall v hv] at hbad
    cases hbad
  · rintro ⟨name, hmem, hbad⟩
    apply apiResult_error_of_not_ok
    intro l hok
    have hfind := (psychometricsPOST_ok_inv entries (some invs) l hok).1
    rw [List.find?_eq_none] at hfind
    have := hfind name hmem
    simp only [Bool.not_eq_true', Bool.not_eq_false] at this
    exact hbad (by simpa using this)
  · intro hall hne hvalid
    simp only [psychometricsPOST, Option.getD_some]
    rw [if_neg (by simpa using hne)]
    have hfind : invs.find? (fun i => !validInventories.contains i) = none := by
      rw [List.find?_eq_none]
      intro x hx
      simp only [Bool.not_eq_true', Bool.not_eq_false]
      simpa using hvalid x hx
    rw [hfind, psychCheckEntries_of_all_arr entries hall]

/-- C5 witness: a non-array entry is rejected by both endpoints, an
unknown inventory name is rejected by the combined endpoint, and the
combined endpoint runs the Big Five scorer on an out-of-range entry. -/
theorem c5_validation_witness :
    (∃ m, bigfivePOST (some [("N1", JEntry.arr [JVal.num 99]), ("N2", JEntry.nonarr)])
        = .validationError m) ∧
    (∃ m, psychometricsPOST (some [("N2", JEntry.nonarr)]) (some ["bigfive"])
        = .validationError m) ∧
    (∃ m, psychometricsPOST (some [("N1", JEntry.arr [JVal.num 3])]) (some ["bogus"])
        = .validationError m) ∧
    psychometricsPOST (some [("N1", JEntry.arr [JVal.num 99])]) (some ["bigfive"])
      = .ok ["bigfive"] := by
  refine ⟨?_, ?_, ?_, ?_⟩
  · exact ((c5_validation [("N1", JEntry.arr [JVal.num 99]), ("N2", JEntry.nonarr)]
      ["bigfive"]).1 ⟨"N2", by decide⟩).1
  · exact ((c5_validation [("N2", JEntry.nonarr)] ["bigfive"]).1 ⟨"N2", by decide⟩).2
  · exact (c5_validation [("N1", JEntry.arr [JVal.num 3])] ["bogus"]).2.2.1
      ⟨"bogus", by decide, by decide⟩
  · have h := (c5_validation [("N1", JEntry.arr [JVal.num 99])] ["bigfive"]).2.2.2.2
      (by
        intro p hp
        rcases List.mem_singleton.1 hp with rfl
        exact ⟨_, rfl⟩)
      (by decide) (by decide)
    rw [h]
    decide

/-! ## Helper lemmas for the derived MBTI transform -/

theorem orMid_some_of_ne (x : ℚ) (hx : x ≠ 0) : orMid (some x) = x := by
  simp only [orMid]
  rw [if_neg hx]

theorem orMid_some_of_range (x : ℚ) (h24 : 24 ≤ x) : orMid (some x) = x :=
  orMid_some_of_ne x (by intro h; rw [h] at h24; norm_num at h24)

theorem orMid_falsy (v : Option ℚ) (h : v = none ∨ v = some 0) :
    orMid v = 72 := by
  rcases h with rfl | rfl <;> simp [orMid, MIDPOINT]

theorem deriveMBTI_type_eq (bf : InventoryResult) :
    (deriveMBTIFromBigFive bf).type = some
      ((if orMid (bf.traitScores "E") ≥ MIDPOINT then "E" else "I")
        ++ (if orMid (bf.traitScores "O") ≥ MIDPOINT then "N" else "S")
        ++ (if orMid (bf.traitScores "A") ≥ MIDPOINT then "F" else "T")
        ++ (if orMid (bf.traitScores "C") ≥ MIDPOINT then "J" else "P")) := rfl

theorem deriveMBTI_trait_E (bf : InventoryResult) :
    (deriveMBTIFromBigFive bf).traitScores "E"
      = some (orMid (bf.traitScores "E")) := rfl

theorem deriveMBTI_trait_I (bf : InventoryResult) :
    (deriveMBTIFromBigFive bf).traitScores "I"
      = some (144 - orMid (bf.traitScores "E")) := rfl

theorem deriveMBTI_trait_N (bf : InventoryResult) :
    (deriveMBTIFromBigFive bf).traitScores "N"
      = some (orMid (bf.traitScores "O")) := rfl

theorem deriveMBTI_trait_S (bf : InventoryResult) :
    (deriveMBTIFromBigFive bf).traitScores "S"
      = some (144 - orMid (bf.traitScores "O")) := rfl

theorem deriveMBTI_trait_F (bf : InventoryResult) :
    (deriveMBTIFromBigFive bf).traitScores "F"
      = some (orMid (bf.traitScores "A")) := rfl

theorem deriveMBTI_trait_T (bf : InventoryResult) :
    (deriveMBTIFromBigFive bf).traitScores "T"
      = some (144 - orMid (bf.traitScores "A")) := rfl

theorem deriveMBTI_trait_J (bf : InventoryResult) :
    (deriveMBTIFromBigFive bf).traitScores "J"
      = some (orMid (bf.traitScores "C")) := rfl

theorem deriveMBTI_trait_P (bf : InventoryResult) :
    (deriveMBTIFromBigFive bf).traitScores "P"
      = some (144 - orMid (bf.traitScores "C")) := rfl

theorem deriveMBTI_psi_IE (bf : InventoryResult) :
    (deriveMBTIFromBigFive bf).psi "IE"
      = some (|orMid (bf.traitScores "E") - MIDPOINT| / MAX_DELTA) := rfl

theorem deriveMBTI_psi_SN (bf : InventoryResult) :
    (deriveMBTIFromBigFive bf).psi "SN"
      = some (|orMid (bf.traitScores "O") - MIDPOINT| / MAX_DELTA) := rfl

theorem deriveMBTI_psi_TF (bf : InventoryResult) :
    (deriveMBTIFromBigFive bf).psi "TF"
      = some (|orMid (bf.traitScores "A") - MIDPOINT| / MAX_DELTA) := rfl

theorem deriveMBTI_psi_JP (bf : InventoryResult) :
    (deriveMBTIFromBigFive bf).psi "JP"
      = some (|orMid (bf.traitScores "C") - MIDPOINT| / MAX_DELTA) := rfl

/-- C6: for in-range Big Five domain scores the derived type letters come
from comparing each of E, O, A, C against the midpoint 72, with the
greater-or-equal test sending ties to the high pole; the type is always a
4-character string over the allowed alphabet; and the transform reads
only the E, O, A, C entries, so any result agreeing on those four keys
derives the identical result (N is unused). -/
theorem c6_derived_type (bf bf2 : InventoryResult) (e o a c : ℚ)
    (hE : bf.traitScores "E" = some e) (hO : bf.traitScores "O" = some o)
    (hA : bf.traitScores "A" = some a) (hC : bf.traitScores "C" = some c)
    (hEr : 24 ≤ e ∧ e ≤ 120) (hOr : 24 ≤ o ∧ o ≤ 120)
    (hAr : 24 ≤ a ∧ a ≤ 120) (hCr : 24 ≤ c ∧ c ≤ 120)
    (hagr : bf2.traitScores "E" = bf.traitScores "E"
      ∧ bf2.traitScores "O" = bf.traitScores "O"
      ∧ bf2.traitScores "A" = bf.traitScores "A"
      ∧ bf2.traitScores "C" = bf.traitScores "C") :
    ((deriveMBTIFromBigFive bf).type).map String.data
      = some [(if 72 ≤ e then 'E' else 'I'), (if 72 ≤ o then 'N' else 'S'),
          (if 72 ≤ a then 'F' else 'T'), (if 72 ≤ c then 'J' else 'P')] ∧
    (∀ t, (deriveMBTIFromBigFive bf).type = some t →
      t.data.length = 4 ∧
        ∀ ch ∈ t.data, ch ∈ ['E', 'I', 'N', 'S', 'F', 'T', 'J', 'P']) ∧
    deriveMBTIFromBigFive bf2 = deriveMBTIFromBigFive bf := by
  have he' : orMid (bf.traitScores "E") = e := by
    rw [hE]; exact orMid_some_of_range e hEr.1
  have ho' : orMid (bf.traitScores "O") = o := by
    rw [hO]; exact orMid_some_of_range o hOr.1
  have ha' : orMid (bf.traitScores "A") = a := by
    rw [hA]; exact orMid_some_of_range a hAr.1
  have hc' : orMid (bf.traitScores "C") = c := by
    rw [hC]; exact orMid_some_of_range c hCr.1
  refine ⟨?_, ?_, ?_⟩
  · rw [deriveMBTI_type_eq, he', ho', ha', hc']
    simp only [ge_iff_le, MIDPOINT, Option.map_some']
    split_ifs <;> rfl
  · intro t ht
    rw [deriveMBTI_type_eq] at ht
    have := Option.some.inj ht
    subst this
    split_ifs <;> decide
  · simp only [deriveMBTIFromBigFive, hagr.1, hagr.2.1, hagr.2.2.1, hagr.2.2.2]

/-- C6 witness: a concrete Big Five result with scores 80, 72, 50, 110
derives the letters E (80 above 72), N (exactly 72, tie to the high
pole), T (50 below 72), J (110 above 72), and a result differing only in
its Neuroticism entry derives the identical result. -/
theorem c6_derived_type_witness :
    ((deriveMBTIFromBigFive
      { inventoryName := "bf", rawScores := [],
        traitScores := fun k =>
          if k = "E" then some 80 else if k = "O" then some 72 else
          if k = "A" then some 50 else if k = "C" then some 110 else
          if k = "N" then some 30 else none,
        type := none, psi := fun _ => none, details := [] }).type).map String.data
      = some ['E', 'N', 'T', 'J'] ∧
    deriveMBTIFromBigFive
      { inventoryName := "bf", rawScores := [],
        traitScores := fun k =>
          if k = "E" then some 80 else if k = "O" then some 72 else
          if k = "A" then some 50 else if k = "C" then some 110 else
          if k = "N" then some 90 else none,
        type := none, psi := fun _ => none, details := [] }
      = deriveMBTIFromBigFive
      { inventoryName := "bf", rawScores := [],
        traitScores := fun k =>
          if k = "E" then some 80 else if k = "O" then some 72 else
          if k = "A" then some 50 else if k = "C" then some 110 else
          if k = "N" then some 30 else none,
        type := none, psi := fun _ => none, details := [] } := by
  have h := c6_derived_type
    { inventoryName := "bf", rawScores := [],
      traitScores := fun k =>
        if k = "E" then some 80 else if k = "O" then some 72 else
        if k = "A" then some 50 else if k = "C" then some 110 else
        if k = "N" then some 30 else none,
      type := none, psi := fun _ => none, details := [] }
    { inventoryName := "bf", rawScores := [],
      traitScores := fun k =>
        if k = "E" then some 80 else if k = "O" then some 72 else
        if k = "A" then some 50 else if k = "C" then some 110 else
        if k = "N" then some 90 else none,
      type := none, psi := fun _ => none, details := [] }
    80 72 50 110 rfl rfl rfl rfl
    (by norm_num) (by norm_num) (by norm_num) (by norm_num)
    ⟨rfl, rfl, rfl, rfl⟩
  refine ⟨?_, h.2.2⟩
  rw [h.1]
  norm_num

/-- C7: the derived result always pairs each pole with its opposite so
the pair sums to exactly 144; for an in-range domain score `s` the
dimension PSI is `|s - 72| / 48` and the trait map holds `s` and
`144 - s`; and a score exactly 72 gives the dimension PSI 0. -/
theorem c7_psi_and_symmetry (bf : InventoryResult) :
    ((∀ x y, (deriveMBTIFromBigFive bf).traitScores "E" = some x →
      (deriveMBTIFromBigFive bf).traitScores "I" = some y → x + y = 144) ∧
     (∀ x y, (deriveMBTIFromBigFive bf).traitScores "N" = some x →
      (deriveMBTIFromBigFive bf).traitScores "S" = some y → x + y = 144) ∧
     (∀ x y, (deriveMBTIFromBigFive bf).traitScores "F" = some x →
      (deriveMBTIFromBigFive bf).traitScores "T" = some y → x + y = 144) ∧
     (∀ x y, (deriveMBTIFromBigFive bf).traitScores "J" = some x →
      (deriveMBTIFromBigFive bf).traitScores "P" = some y → x + y = 144)) ∧
    ((∀ e, bf.traitScores "E" = some e → 24 ≤ e → e ≤ 120 →
      (deriveMBTIFromBigFive bf).psi "IE" = some (|e - 72| / 48) ∧
      (deriveMBTIFromBigFive bf).traitScores "E" = some e ∧
      (deriveMBTIFromBigFive bf).traitScores "I" = some (144 - e)) ∧
     (∀ o, bf.traitScores "O" = some o → 24 ≤ o → o ≤ 120 →
      (deriveMBTIFromBigFive bf).psi "SN" = some (|o - 72| / 48) ∧
      (deriveMBTIFromBigFive bf).traitScores "N" = some o ∧
      (deriveMBTIFromBigFive bf).traitScores "S" = some (144 - o)) ∧
     (∀ a, bf.traitScores "A" = some a → 24 ≤ a → a ≤ 120 →
      (deriveMBTIFromBigFive bf).psi "TF" = some (|a - 72| / 48) ∧
      (deriveMBTIFromBigFive bf).traitScores "F" = some a ∧
      (deriveMBTIFromBigFive bf).traitScores "T" = some (144 - a)) ∧
     (∀ c, bf.traitScores "C" = some c → 24 ≤ c → c ≤ 120 →
      (deriveMBTIFromBigFive bf).psi "JP" = some (|c - 72| / 48) ∧
      (deriveMBTIFromBigFive bf).traitScores "J" = some c ∧
      (deriveMBTIFromBigFive bf).traitScores "P" = some (144 - c))) ∧
    ((bf.traitScores "E" = some 72 →
        (deriveMBTIFromBigFive bf).psi "IE" = some 0) ∧
     (bf.traitScores "O" = some 72 →
        (deriveMBTIFromBigFive bf).psi "SN" = some 0) ∧
     (bf.traitScores "A" = some 72 →
        (deriveMBTIFromBigFive bf).psi "TF" = some 0) ∧
     (bf.traitScores "C" = some 72 →
        (deriveMBTIFromBigFive bf).psi "JP" = some 0)) := by
  refine ⟨⟨?_, ?_, ?_, ?_⟩, ⟨?_, ?_, ?_, ?_⟩, ⟨?_, ?_, ?_, ?_⟩⟩
  · intro x y hx hy
    rw [deriveMBTI_trait_E] at hx
    rw [deriveMBTI_trait_I] at hy
    have hx' := Option.some.inj hx
    have hy' := Option.some.inj hy
    linarith
  · intro x y hx hy
    rw [deriveMBTI_trait_N] at hx
    rw [deriveMBTI_trait_S] at hy
    have hx' := Option.some.inj hx
    have hy' := Option.some.inj hy
    linarith
  · intro x y hx hy
    rw [deriveMBTI_trait_F] at hx
    rw [deriveMBTI_trait_T] at hy
    have hx' := Option.some.inj hx
    have hy' := Option.some.inj hy
    linarith
  · intro x y hx hy
    rw [deriveMBTI_trait_J] at hx
    rw [deriveMBTI_trait_P] at hy
    have hx' := Option.some.inj hx
    have hy' := Option.some.inj hy
    linarith
  · intro e he h24 _
    have he' : orMid (bf.traitScores "E") = e := by
      rw [he]; exact orMid_some_of_range e h24
    rw [deriveMBTI_psi_IE, deriveMBTI_trait_E, deriveMBTI_trait_I, he']
    simp only [MIDPOINT, MAX_DELTA]
    exact ⟨by trivial, by trivial, by trivial⟩
  · intro o ho h24 _
    have ho' : orMid (bf.traitScores "O") = o := by
      rw [ho]; exact orMid_some_of_range o h24
    rw [deriveMBTI_psi_SN, deriveMBTI_trait_N, deriveMBTI_trait_S, ho']
    simp only [MIDPOINT, MAX_DELTA]
    exact ⟨by trivial, by trivial, by trivial⟩
  · intro a ha h24 _
    have ha' : orMid (bf.traitScores "A") = a := by
      rw [ha]; exact orMid_some_of_range a h24
    rw [deriveMBTI_psi_TF, deriveMBTI_trait_F, deriveMBTI_trait_T, ha']
    simp only [MIDPOINT, MAX_DELTA]
    exact ⟨by trivial, by trivial, by trivial⟩
  · intro c hc h24 _
    have hc' : orMid (bf.traitScores "C") = c := by
      rw [hc]; exact orMid_some_of_range c h24
    rw [deriveMBTI_psi_JP, deriveMBTI_trait_J, deriveMBTI_trait_P, hc']
    simp only [MIDPOINT, MAX_DELTA]
    exact ⟨by trivial, by trivial, by trivial⟩
  · intro he
    have he' : orMid (bf.traitScores "E") = 72 := by
      rw [he]; exact orMid_some_of_range 72 (by norm_num)
    rw [deriveMBTI_psi_IE, he']
    norm_num [MIDPOINT]
  · intro ho
    have ho' : orMid (bf.traitScores "O") = 72 := by
      rw [ho]; exact orMid_some_of_range 72 (by norm_num)
    rw [deriveMBTI_psi_SN, ho']
    norm_num [MIDPOINT]
  · intro ha
    have ha' : orMid (bf.traitScores "A") = 72 := by
      rw [ha]; exact orMid_some_of_range 72 (by norm_num)
    rw [deriveMBTI_psi_TF, ha']
    norm_num [MIDPOINT]
  · intro hc
    have hc' : orMid (bf.traitScores "C") = 72 := by
      rw [hc]; exact orMid_some_of_range 72 (by norm_num)
    rw [deriveMBTI_psi_JP, hc']
    norm_num [MIDPOINT]

/-- Concrete Big Five result with every domain score exactly at the
midpoint 72, used by witnesses. -/
def bfAt72 : InventoryResult :=
  { inventoryName := "bf", rawScores := [],
    traitScores := fun k =>
      if k = "E" then some 72 else if k = "O" then some 72 else
      if k = "A" then some 72 else if k = "C" then some 72 else
      if k = "N" then some 72 else none,
    type := none, psi := fun _ => none, details := [] }

/-- C7 witness: at the all-72 Big Five result, the E/I pair sums to 144,
the trait map holds (72, 72), and every dimension PSI is 0. -/
theorem c7_psi_and_symmetry_witness :
    (deriveMBTIFromBigFive bfAt72).traitScores "E" = some 72 ∧
    (deriveMBTIFromBigFive bfAt72).traitScores "I" = some (144 - 72) ∧
    (72 : ℚ) + (144 - 72) = 144 ∧
    (deriveMBTIFromBigFive bfAt72).psi "IE" = some 0 ∧
    (deriveMBTIFromBigFive bfAt72).psi "SN" = some 0 ∧
    (deriveMBTIFromBigFive bfAt72).psi "TF" = some 0 ∧
    (deriveMBTIFromBigFive bfAt72).psi "JP" = some 0 := by
  have h := c7_psi_and_symmetry bfAt72
  have hE := h.2.1.1 72 rfl (by norm_num) (by norm_num)
  refine ⟨hE.2.1, hE.2.2, by norm_num, ?_, ?_, ?_, ?_⟩
  · exact h.2.2.1 rfl
  · exact h.2.2.2.1 rfl
  · exact h.2.2.2.2.1 rfl
  · exact h.2.2.2.2.2 rfl

/-- C8: for a Big Five result whose E, O, A, C scores all lie in the
documented range [24,120], every PSI of the derived result lies in
[0,1]. -/
theorem c8_psi_unit_interval (bf : InventoryResult) (e o a c : ℚ)
    (hE : bf.traitScores "E" = some e) (hO : bf.traitScores "O" = some o)
    (hA : bf.traitScores "A" = some a) (hC : bf.traitScores "C" = some c)
    (hEr : 24 ≤ e ∧ e ≤ 120) (hOr : 24 ≤ o ∧ o ≤ 120)
    (hAr : 24 ≤ a ∧ a ≤ 120) (hCr : 24 ≤ c ∧ c ≤ 120) :
    (∃ v, (deriveMBTIFromBigFive bf).psi "IE" = some v ∧ 0 ≤ v ∧ v ≤ 1) ∧
    (∃ v, (deriveMBTIFromBigFive bf).psi "SN" = some v ∧ 0 ≤ v ∧ v ≤ 1) ∧
    (∃ v, (deriveMBTIFromBigFive bf).psi "TF" = some v ∧ 0 ≤ v ∧ v ≤ 1) ∧
    (∃ v, (deriveMBTIFromBigFive bf).psi "JP" = some v ∧ 0 ≤ v ∧ v ≤ 1) := by
  have key : ∀ x : ℚ, 24 ≤ x → x ≤ 120 →
      0 ≤ |x - MIDPOINT| / MAX_DELTA ∧ |x - MIDPOINT| / MAX_DELTA ≤ 1 := by
    intro x h1 h2
    constructor
    · exact div_nonneg (abs_nonneg _) (by norm_num [MAX_DELTA])
    · rw [div_le_one (by norm_num [MAX_DELTA] : (0 : ℚ) < MAX_DELTA)]
      rw [abs_le]
      constructor <;> simp only [MIDPOINT, MAX_DELTA] <;> linarith
  have he' : orMid (bf.traitScores "E") = e := by
    rw [hE]; exact orMid_some_of_range e hEr.1
  have ho' : orMid (bf.traitScores "O") = o := by
    rw [hO]; exact orMid_some_of_range o hOr.1
  have ha' : orMid (bf.traitScores "A") = a := by
    rw [hA]; exact orMid_some_of_range a hAr.1
  have hc' : orMid (bf.traitScores "C") = c := by
    rw [hC]; exact orMid_some_of_range c hCr.1
  refine ⟨⟨_, by rw [deriveMBTI_psi_IE, he'], key e hEr.1 hEr.2⟩,
    ⟨_, by rw [deriveMBTI_psi_SN, ho'], key o hOr.1 hOr.2⟩,
    ⟨_, by rw [deriveMBTI_psi_TF, ha'], key a hAr.1 hAr.2⟩,
    ⟨_, by rw [deriveMBTI_psi_JP, hc'], key c hCr.1 hCr.2⟩⟩

/-- C8 witness: at the extreme in-range result E = 120, O = 24, A = 72,
C = 96 every derived PSI lies in [0,1]. -/
theorem c8_psi_unit_interval_witness :
    (∃ v, (deriveMBTIFromBigFive
      { inventoryName := "bf", rawScores := [],
        traitScores := fun k =>
          if k = "E" then some 120 else if k = "O" then some 24 else
          if k = "A" then some 72 else if k = "C" then some 96 else none,
        type := none, psi := fun _ => none, details := [] }).psi "IE"
      = some v ∧ 0 ≤ v ∧ v ≤ 1) := by
  exact (c8_psi_unit_interval _ 120 24 72 96 rfl rfl rfl rfl
    (by norm_num) (by norm_num) (by norm_num) (by norm_num)).1

/-- C10: a missing or exactly-zero domain score among E, O, A, C is
replaced by the midpoint 72, so that dimension gets PSI 0, the high-pole
letter, and the symmetric trait pair (72, 72). -/
theorem c10_falsy_score_midpoint (bf : InventoryResult) :
    ((bf.traitScores "E" = none ∨ bf.traitScores "E" = some 0) →
      (deriveMBTIFromBigFive bf).psi "IE" = some 0 ∧
      (deriveMBTIFromBigFive bf).traitScores "E" = some 72 ∧
      (deriveMBTIFromBigFive bf).traitScores "I" = some 72 ∧
      (∀ t, (deriveMBTIFromBigFive bf).type = some t →
        t.data.get? 0 = some 'E')) ∧
    ((bf.traitScores "O" = none ∨ bf.traitScores "O" = some 0) →
      (deriveMBTIFromBigFive bf).psi "SN" = some 0 ∧
      (deriveMBTIFromBigFive bf).traitScores "N" = some 72 ∧
      (deriveMBTIFromBigFive bf).traitScores "S" = some 72 ∧
      (∀ t, (deriveMBTIFromBigFive bf).type = some t →
        t.data.get? 1 = some 'N')) ∧
    ((bf.traitScores "A" = none ∨ bf.traitScores "A" = some 0) →
      (deriveMBTIFromBigFive bf).psi "TF" = some 0 ∧
      (deriveMBTIFromBigFive bf).traitScores "F" = some 72 ∧
      (deriveMBTIFromBigFive bf).traitScores "T" = some 72 ∧
      (∀ t, (deriveMBTIFromBigFive bf).type = some t →
        t.data.get? 2 = some 'F')) ∧
    ((bf.traitScores "C" = none ∨ bf.traitScores "C" = some 0) →
      (deriveMBTIFromBigFive bf).psi "JP" = some 0 ∧
      (deriveMBTIFromBigFive bf).traitScores "J" = some 72 ∧
      (deriveMBTIFromBigFive bf).traitScores "P" = some 72 ∧
      (∀ t, (deriveMBTIFromBigFive bf).type = some t →
        t.data.get? 3 = some 'J')) := by
  refine ⟨?_, ?_, ?_, ?_⟩
  · intro hf
    have hm := orMid_falsy _ hf
    refine ⟨?_, ?_, ?_, ?_⟩
    · rw [deriveMBTI_psi_IE, hm]
      norm_num [MIDPOINT]
    · rw [deriveMBTI_trait_E, hm]
    · rw [deriveMBTI_trait_I, hm]
      norm_num
    · intro t ht
      rw [deriveMBTI_type_eq, hm] at ht
      have hslot : (if (72 : ℚ) ≥ MIDPOINT then "E" else "I") = "E" :=
        if_pos (by norm_num [MIDPOINT])
      rw [hslot] at ht
      have := Option.some.inj ht
      subst this
      split_ifs <;> decide
  · intro hf
    have hm := orMid_falsy _ hf
    refine ⟨?_, ?_, ?_, ?_⟩
    · rw [deriveMBTI_psi_SN, hm]
      norm_num [MIDPOINT]
    · rw [deriveMBTI_trait_N, hm]
    · rw [deriveMBTI_trait_S, hm]
      norm_num
    · intro t ht
      rw [deriveMBTI_type_eq, hm] at ht
      have hslot : (if (72 : ℚ) ≥ MIDPOINT then "N" else "S") = "N" :=
        if_pos (by norm_num [MIDPOINT])
      rw [hslot] at ht
      have := Option.some.inj ht
      subst this
      split_ifs <;> decide
  · intro hf
    have hm := orMid_falsy _ hf
    refine ⟨?_, ?_, ?_, ?_⟩
    · rw [deriveMBTI_psi_TF, hm]
      norm_num [MIDPOINT]
    · rw [deriveMBTI_trait_F, hm]
    · rw [deriveMBTI_trait_T, hm]
      norm_num
    · intro t ht
      rw [deriveMBTI_type_eq, hm] at ht
      have hslot : (if (72 : ℚ) ≥ MIDPOINT then "F" else "T") = "F" :=
        if_pos (by norm_num [MIDPOINT])
      rw [hslot] at ht
      have := Option.some.inj ht
      subst this
      split_ifs <;> decide
  · intro hf
    have hm := orMid_falsy _ hf
    refine ⟨?_, ?_, ?_, ?_⟩
    · rw [deriveMBTI_psi_JP, hm]
      norm_num [MIDPOINT]
    · rw [deriveMBTI_trait_J, hm]
    · rw [deriveMBTI_trait_P, hm]
      norm_num
    · intro t ht
      rw [deriveMBTI_type_eq, hm] at ht
      have hslot : (if (72 : ℚ) ≥ MIDPOINT then "J" else "P") = "J" :=
        if_pos (by norm_num [MIDPOINT])
      rw [hslot] at ht
      have := Option.some.inj ht
      subst this
      split_ifs <;> decide

/-- Big Five result with no trait scores at all, used by witnesses. -/
def bfEmpty : InventoryResult :=
  { inventoryName := "bf", rawScores := [], traitScores := fun _ => none,
    type := none, psi := fun _ => none, details := [] }

/-- C10 witness: with every domain score missing, each dimension gets
PSI 0, the trait pair (72, 72), and the all-high-pole letters. -/
theorem c10_falsy_score_midpoint_witness :
    (deriveMBTIFromBigFive bfEmpty).psi "IE" = some 0 ∧
    (deriveMBTIFromBigFive bfEmpty).traitScores "E" = some 72 ∧
    (deriveMBTIFromBigFive bfEmpty).traitScores "I" = some 72 ∧
    (deriveMBTIFromBigFive bfEmpty).psi "SN" = some 0 ∧
    (deriveMBTIFromBigFive bfEmpty).psi "TF" = some 0 ∧
    (deriveMBTIFromBigFive bfEmpty).psi "JP" = some 0 ∧
    (∀ t, (deriveMBTIFromBigFive bfEmpty).type = some t →
      t.data.get? 0 = some 'E' ∧ t.data.get? 1 = some 'N' ∧
      t.data.get? 2 = some 'F' ∧ t.data.get? 3 = some 'J') := by
  have h := c10_falsy_score_midpoint bfEmpty
  have h1 := h.1 (Or.inl rfl)
  have h2 := h.2.1 (Or.inl rfl)
  have h3 := h.2.2.1 (Or.inl rfl)
  have h4 := h.2.2.2 (Or.inl rfl)
  exact ⟨h1.1, h1.2.1, h1.2.2.1, h2.1, h3.1, h4.1,
    fun t ht => ⟨h1.2.2.2 t ht, h2.2.2.2 t ht, h3.2.2.2 t ht, h4.2.2.2 t ht⟩⟩

/-! ## Helper lemmas for the analysis trace -/

theorem sampleEvents_isSample (items : List InventoryItem) :
    ∀ ev ∈ sampleEvents items, ev.isSample = true := by
  intro ev hev
  unfold sampleEvents at hev
  obtain ⟨it, _, hm⟩ := List.mem_flatMap.1 hev
  obtain ⟨k, _, rfl⟩ := List.mem_map.1 hm
  rfl

theorem sampleEvents_filter_persist (items : List InventoryItem) :
    (sampleEvents items).filter Event.isPersist = [] := by
  rw [List.filter_eq_nil_iff]
  intro ev hev
  have hs := sampleEvents_isSample items ev hev
  cases ev with
  | sample itemId round => simp [Event.isPersist]
  | persist p => simp [Event.isSample] at hs

/-- C9: the persistence collaborator is called at most once per run, only
after every sample event, and only with the fully assembled profile; the
in-memory profile is returned whatever the store does, so a persistence
failure leaves the run complete and the profile available. -/
theorem c9_persist_once_after_sampling (q : QueryOracle) (sc : Scorers)
    (store : Option (ModelProfile → Option String)) (model persona sys : String)
    (inventories : List String) (items : List InventoryItem) :
    ∃ post,
      (runAnalysisTrace q sc store model persona sys inventories items).1
        = sampleEvents items ++ post ∧
      (∀ ev ∈ sampleEvents items, ev.isSample = true) ∧
      (∀ ev ∈ post, ev = Event.persist
        { modelName := model, persona := persona, systemPrompt := sys,
          results := assembleResults sc inventories (runSampling q items) }) ∧
      post.length ≤ 1 ∧
      ((runAnalysisTrace q sc store model persona sys inventories items).1.filter
          Event.isPersist).length ≤ 1 ∧
      (runAnalysisTrace q sc store model persona sys inventories items).2.1
        = { modelName := model, persona := persona, systemPrompt := sys,
            results := assembleResults sc inventories (runSampling q items) } := by
  cases store with
  | none =>
    refine ⟨[], ?_, sampleEvents_isSample items, ?_, ?_, ?_, ?_⟩
    · simp [runAnalysisTrace]
    · intro ev hev
      cases hev
    · simp
    · simp only [runAnalysisTrace]
      rw [sampleEvents_filter_persist]
      simp
    · rfl
  | some st =>
    cases hst : st (ModelProfile.mk model persona sys
        (assembleResults sc inventories (runSampling q items))) with
    | none =>
      refine ⟨[Event.persist
        { modelName := model, persona := persona, systemPrompt := sys,
          results := assembleResults sc inventories (runSampling q items) }],
        ?_, sampleEvents_isSample items, ?_, ?_, ?_, ?_⟩
      · simp only [runAnalysisTrace]
        rw [hst]
      · intro ev hev
        rcases List.mem_singleton.1 hev with rfl
        rfl
      · simp
      · simp only [runAnalysisTrace]
        rw [hst, List.filter_append, sampleEvents_filter_persist]
        simp [Event.isPersist]
      · simp only [runAnalysisTrace]
        rw [hst]
    | some err =>
      refine ⟨[Event.persist
        { modelName := model, persona := persona, systemPrompt := sys,
          results := assembleResults sc inventories (runSampling q items) }],
        ?_, sampleEvents_isSample items, ?_, ?_, ?_, ?_⟩
      · simp only [runAnalysisTrace]
        rw [hst]
      · intro ev hev
        rcases List.mem_singleton.1 hev with rfl
        rfl
      · simp
      · simp only [runAnalysisTrace]
        rw [hst, List.filter_append, sampleEvents_filter_persist]
        simp [Event.isPersist]
      · simp only [runAnalysisTrace]
        rw [hst]

end PsychLab
